import Mathlib

/-!
# Verification of the youtube-dl JavaScript interpreter (`youtube_dl/jsinterp.py`)

A shallow embedding of the parts of `jsinterp.py` needed to settle the frozen
claims: the runtime value model, the bitwise/arithmetic operator combinators,
the layered scope chain (`LocalNameSpace` over `ChainMap`), the statement
evaluator's `try`/`catch`/`finally` frame and recursion budget, the function
call wrapper (`build_function`/`resf`), the expression separator (`_separate`),
and the `split` / `charCodeAt` / `pop` / `shift` host methods.

Python semantics (truthiness, `%`, `&`, negative indexing, `str.split`,
`dict`/`ChainMap` behaviour, `itertools.zip_longest`) are translated explicitly;
machine integers are `Int` with the `% 2^32` reductions written out where the
source masks, and Python floats are modelled as a tagged union of exact
rationals, `nan` and the two infinities (the module itself only ever uses the
single `_NaN` and `_Infinity` objects, compared by identity).
-/

/-- A Python number as used by the interpreter: `int` and `float` are
distinguished (observable via `isinstance(x, int)` checks in the source);
a finite float is modelled as an exact rational; `float('nan')` and the two
infinities are separate tags (in the source they are the distinguished
`_NaN` / `_Infinity` objects, membership-tested by identity). -/
inductive JNum where
  | int (n : ℤ)
  | float (q : ℚ)
  | nan
  | inf
  | neginf
deriving DecidableEq, Repr

/-- A runtime value of the interpreter: the tagged union over
`JS_Undefined` (the class itself is used as the value), Python `None`
(JS `null`), booleans, numbers, strings, lists (JS arrays), dicts
(JS objects), and host exception objects (as bound by `catch`). -/
inductive JSVal where
  | undef
  | null
  | bool (b : Bool)
  | num (n : JNum)
  | str (s : String)
  | arr (elts : List JSVal)
  | obj (fields : List (String × JSVal))
  | hostErr (msg : String)

/-- The `x is JS_Undefined` / `JS_Undefined in (a, b)` membership test. -/
def JSVal.isUndef : JSVal → Bool
  | .undef => true
  | _ => false

/-- Python truthiness of a runtime value (`bool(x)`): `None`, `False`, zero
numbers, and empty strings/lists/dicts are falsy; note that the
`JS_Undefined` class object and `float('nan')` are truthy in Python. -/
def pyTruthy : JSVal → Bool
  | .undef => true
  | .null => false
  | .bool b => b
  | .num (.int n) => n != 0
  | .num (.float q) => q != 0
  | .num .nan => true
  | .num .inf => true
  | .num .neginf => true
  | .str s => s != ""
  | .arr l => !l.isEmpty
  | .obj l => !l.isEmpty
  | .hostErr _ => true

/-- The `isinstance(x, compat_integer_types)` test: Python `int`s, which include the
booleans (`True == 1`, `False == 0`). Returns the integer value. -/
def pyIntOf : JSVal → Option ℤ
  | .num (.int n) => some n
  | .bool b => some (if b then 1 else 0)
  | _ => none

/-- Python `str.strip()` (strip leading and trailing whitespace). -/
def pyStrip (s : String) : String :=
  ⟨((s.toList.dropWhile Char.isWhitespace).reverse.dropWhile
      Char.isWhitespace).reverse⟩

/-- Value of a nonempty all-digit character list (base 10). -/
def digitsVal : List Char → Option ℕ
  | [] => none
  | l =>
    if l.all Char.isDigit then
      some (l.foldl (fun a c => 10 * a + (c.toNat - 48)) 0)
    else none

/-- Value of a possibly-empty all-digit character list (base 10), 0 if empty. -/
def digitsVal0 (l : List Char) : ℕ :=
  l.foldl (fun a c => 10 * a + (c.toNat - 48)) 0

/-- Models Python `float(s)` on a string: strips whitespace, accepts an
optional sign, the special spellings `inf`/`infinity`/`nan`
(case-insensitive), and plain decimal literals `ddd`, `ddd.ddd`, `ddd.`,
`.ddd`; `none` models the `ValueError` raised otherwise.  (Exponent
notation is not needed by any claim and parses as `none`.) -/
def pyFloatParse (s : String) : Option JNum :=
  let t := (pyStrip s).toList
  let sgnu : ℤ × List Char :=
    match t with
    | '+' :: r => (1, r)
    | '-' :: r => (-1, r)
    | r => (1, r)
  let sgn := sgnu.1
  let u := sgnu.2
  let lower := u.map Char.toLower
  if lower = "inf".toList ∨ lower = "infinity".toList then
    some (if sgn = 1 then .inf else .neginf)
  else if lower = "nan".toList then some .nan
  else
    match u.span (fun c => c ≠ '.') with
    | (intPart, []) => (digitsVal intPart).map (fun n => .float (sgn * n))
    | (intPart, _dot :: frac) =>
      if frac.any (fun c => c = '.') then none
      else if intPart.isEmpty ∧ frac.isEmpty then none
      else if intPart.all Char.isDigit ∧ frac.all Char.isDigit then
        some (.float (sgn * ((digitsVal0 intPart : ℚ) +
          (digitsVal0 frac : ℚ) / (10 ^ frac.length))))
      else none

/-- Models Python `float(x)` on a runtime value: numbers and bools convert,
strings parse, everything else (`None`, `JS_Undefined`, lists, dicts)
raises `TypeError`, modelled as `none`. -/
def pyFloatConv : JSVal → Option JNum
  | .num (.int n) => some (.float n)
  | .num m => some m
  | .bool b => some (.float (if b then 1 else 0))
  | .str s => pyFloatParse s
  | _ => none

/-- Python float `%` with a positive divisor: `a - n * floor(a / n)`,
a value in `[0, n)`. -/
def qmod (a n : ℚ) : ℚ := a - n * (Int.floor (a / n) : ℚ)

/-- Models `zeroise` from `_js_bit_op` (jsinterp.py:74-88): Python ints are masked
with `& 0xFFFFFFFF` (or `% 32` for a shift amount); other values go through
`float()` and then `int(x % 32)` resp. `±int(∓x % 0xFFFFFFFF)`; a
`ValueError`/`TypeError` anywhere (NaN, the infinities — whose float `%`
is NaN — and non-numeric strings) gives 0. -/
def zeroise (x : JSVal) (isShiftArg : Bool) : ℤ :=
  match pyIntOf x with
  | some n => if isShiftArg then n % 32 else n % 4294967296
  | none =>
    match pyFloatConv x with
    | some (.float q) =>
      if isShiftArg then Int.floor (qmod q 32)
      else if q < 0 then -(Int.floor (qmod (-q) 4294967295))
      else Int.floor (qmod q 4294967295)
    | _ => 0

/-- Models `wrapped` from `_js_bit_op` (jsinterp.py:90-92): apply the integer
operator to the zeroised operands and mask the result with `& 0xFFFFFFFF`. -/
def js_bit_op (op : ℤ → ℤ → ℤ) (isShift : Bool) (a b : JSVal) : ℤ :=
  (op (zeroise a false) (zeroise b isShift)) % 4294967296

/-- Models `operator.or_` on Python ints (two's-complement bitwise or). -/
def pyOr : ℤ → ℤ → ℤ := Int.lor

/-- Models `operator.lshift` on Python ints (the shift amounts produced by
`zeroise` are in `[0, 32)`, where `a << b = a * 2 ^ b`). -/
def pyLshift (a b : ℤ) : ℤ := a * 2 ^ b.toNat

/-- The `|` operator of the operator table: `_js_bit_op(operator.or_)`. -/
def js_bit_or : JSVal → JSVal → ℤ := js_bit_op pyOr false

/-- The `<<` operator of the operator table: `_js_bit_op(operator.lshift, True)`. -/
def js_lshift : JSVal → JSVal → ℤ := js_bit_op pyLshift true

/-- Modelled from the spec's words, for comparison with the code
(**ToInt32**): convert to number; NaN/±Infinity give 0; else truncate toward
zero and reduce modulo 2³² into the signed range `[-2³¹, 2³¹)`. -/
def toInt32spec (x : ℤ) : ℤ :=
  let r := x % 4294967296
  if r ≥ 2147483648 then r - 4294967296 else r

/-- Truthiness of a coerced arithmetic operand (a Python float):
`0.0` is falsy; NaN and the infinities are truthy. -/
def jnumTruthy : JNum → Bool
  | .float q => q != 0
  | .int n => n != 0
  | _ => true

/-- The per-operand coercion of `_js_arith_op` (jsinterp.py:103-105):
strings are stripped; then `x or 0` (Python truthiness) maps `null`, `False`,
`""`, `0`, empty lists/dicts to 0; then `float_or_none(·, default=_NaN)`
(utils helper: `float(x)` with failures giving the default) turns
numbers/parsable strings into floats and everything else into NaN. -/
def coerceArith (x : JSVal) : JNum :=
  let x := match x with
    | .str s => .str (pyStrip s)
    | v => v
  if pyTruthy x then
    match pyFloatConv x with
    | some f => f
    | none => .nan
  else .float 0

/-- Models `wrapped` from `_js_arith_op` (jsinterp.py:98-112).  `op` returns `none`
where the Python operator raises `ZeroDivisionError`.  If either operand is
`JS_Undefined` the result is NaN; after coercion a NaN operand gives NaN;
on `ZeroDivisionError` the result is `_Infinity` when `div` is set and
`a or b` is truthy, else NaN. -/
def js_arith_op (op : JNum → JNum → Option JNum) (div : Bool) (a b : JSVal) : JNum :=
  if a.isUndef ∨ b.isUndef then .nan
  else
    let fa := coerceArith a
    let fb := coerceArith b
    if fa = .nan ∨ fb = .nan then .nan
    else
      match op fa fb with
      | some r => r
      | none => if div ∧ (jnumTruthy fa ∨ jnumTruthy fb) then .inf else .nan

/-- Models `operator.truediv` on Python floats: `none` is the `ZeroDivisionError`
raised on a zero divisor; the IEEE rules for the infinities are written out
(NaN operands never reach this point in `_js_arith_op`). -/
def opTruediv : JNum → JNum → Option JNum
  | .float a, .float b => if b = 0 then none else some (.float (a / b))
  | .float _, .inf => some (.float 0)
  | .float _, .neginf => some (.float 0)
  | .inf, .float b => if b = 0 then none else some (if b < 0 then .neginf else .inf)
  | .neginf, .float b => if b = 0 then none else some (if b < 0 then .inf else .neginf)
  | _, _ => some .nan

/-- Models `operator.pow` on Python floats: `0.0 ** negative` raises
`ZeroDivisionError` (`none`); integral exponents are exact; a non-integral
exponent is outside the rational model and unreachable from every claim
(approximated as NaN here); the infinity cases likewise never arise in the
claims because `_js_arith_op` filters NaN and `_js_exp` short-circuits
`b == 0`. -/
def opPow : JNum → JNum → Option JNum
  | .float a, .float b =>
    if b.den = 1 then
      if a = 0 ∧ b < 0 then none else some (.float (a ^ b.num))
    else some .nan
  | _, _ => some .nan

/-- The `/` operator of the operator table:
`_js_arith_op(operator.truediv, div=True)`. -/
def js_div : JSVal → JSVal → JNum := js_arith_op opTruediv true

/-- Models `__js_exp = _js_arith_op(operator.pow)` (jsinterp.py:130). -/
def js_exp_underlying : JSVal → JSVal → JNum := js_arith_op opPow false

/-- Models `_js_exp` (jsinterp.py:133-136): `if not b: return 1  # even 0 ** 0 !!`
— any Python-falsy exponent (0, 0.0, False, None, "", …) gives the int 1;
otherwise defer to `__js_exp`. -/
def js_exp (a b : JSVal) : JSVal :=
  if ¬ pyTruthy b then .num (.int 1)
  else .num (js_exp_underlying a b)

/-- A dictionary key as used in the interpreter's scope dicts: normally a
string name, but `build_function`'s `zip_longest(argnames, args,
fillvalue=JS_Undefined)` keys surplus arguments under the `JS_Undefined`
class itself (`undefKey`), a key no JS name can ever reference. -/
inductive Key where
  | name (s : String)
  | undefKey
deriving DecidableEq, Repr

/-- A Python dict (insertion-ordered, unique keys) modelled as an
association list updated in place. -/
abbrev Scope := List (Key × JSVal)

/-- Dict lookup `scope[key]` (first — and only — binding of the key). -/
def scopeGet : Scope → Key → Option JSVal
  | [], _ => none
  | p :: t, k => if p.1 = k then some p.2 else scopeGet t k

/-- Dict membership `key in scope`. -/
def scopeHas (s : Scope) (k : Key) : Bool :=
  (scopeGet s k).isSome

/-- Dict assignment `scope[key] = value`: rewrite the existing binding in
place, else append a new one (Python dicts preserve insertion order,
and a dict holds at most one binding per key). -/
def scopeSet : Scope → Key → JSVal → Scope
  | [], k, v => [(k, v)]
  | p :: t, k, v => if p.1 = k then (k, v) :: t else p :: scopeSet t k v

/-- Python `dict.update(pairs)`: assign each pair in order. -/
def scopeUpdate (s : Scope) (kvs : List (Key × JSVal)) : Scope :=
  kvs.foldl (fun sc kv => scopeSet sc kv.1 kv.2) s

/-- Value of the *last* binding of `k` in an update list (later assignments
in a `dict.update` overwrite earlier ones). -/
def lastVal : List (Key × JSVal) → Key → Option JSVal
  | [], _ => none
  | p :: t, k =>
    match lastVal t k with
    | some w => some w
    | none => if p.1 = k then some p.2 else none

/-- A `LocalNameSpace` (jsinterp.py:339-357): a `collections.ChainMap` of
scopes, innermost first. -/
abbrev LNS := List Scope

/-- Models `LocalNameSpace.__getitem__`: `ChainMap` lookup walks the maps in order
and the `KeyError` of a failed lookup is turned into `JS_Undefined`. -/
def lnsGet (m : LNS) (k : Key) : JSVal :=
  match m with
  | [] => .undef
  | s :: rest =>
    match scopeGet s k with
    | some v => v
    | none => lnsGet rest k

/-- Helper for `LocalNameSpace.__setitem__`: write the first scope that already binds
the key; `none` when no scope does. -/
def lnsSetExisting (m : LNS) (k : Key) (v : JSVal) : Option LNS :=
  match m with
  | [] => none
  | s :: rest =>
    if scopeHas s k then some (scopeSet s k v :: rest)
    else (lnsSetExisting rest k v).map (s :: ·)

/-- Models `LocalNameSpace.__setitem__` (jsinterp.py:346-351): rewrite the key in
the scope that defined it, else create the binding in `maps[0]` (the
innermost scope; a `ChainMap` always carries at least one map, so the empty
case below is unreachable and modelled as a no-op). -/
def lnsSet (m : LNS) (k : Key) (v : JSVal) : LNS :=
  match lnsSetExisting m k v with
  | some m' => m'
  | none =>
    match m with
    | [] => []
    | s :: rest => scopeSet s k v :: rest

/-- Python `ChainMap.new_child(m=child)`: prepend a fresh innermost scope. -/
def lnsNewChild (m : LNS) (child : Scope) : LNS := child :: m

/-- An interpreter-level exception: `JSInterpreter.Exception` (`interp`),
`JS_Throw` wrapping a thrown value, `JS_Break`/`JS_Continue`, and host
Python exceptions (`TypeError`, `IndexError`, …) escaping a primitive. -/
inductive JSErr where
  | interp (msg : String)
  | jsThrow (v : JSVal)
  | jsBreak
  | jsContinue
  | pyErr (msg : String)

/-- The budget failure `self.Exception('Recursion limit reached')`
(jsinterp.py:839-840) — an ordinary interpreter exception, with no
distinguished type of its own. -/
def recursionLimitErr : JSErr := .interp "Recursion limit reached"

/-- Models `err.error if isinstance(err, JS_Throw) else err` (jsinterp.py:1001):
the value bound by a `catch` clause — the thrown value for a `JS_Throw`,
the exception object itself otherwise. -/
def errToVal : JSErr → JSVal
  | .jsThrow v => v
  | .interp msg => .hostErr msg
  | .pyErr msg => .hostErr msg
  | .jsBreak => .hostErr "Invalid break"
  | .jsContinue => .hostErr "Invalid continue"

/-- A single `;`-free statement, at the granularity of one
`interpret_statement` invocation (each constructor is one source-text shape
the dispatcher recognises; every nested evaluation in the Python makes a
recursive `interpret_statement` call with the decremented budget). -/
inductive Stmt where
  /-- the empty statement `''`: `return None, should_return` -/
  | empty
  /-- a literal expression, optionally prefixed by `return`
      (the `_VAR_RET_THROW_RE` + `json.loads` paths) -/
  | litRet (v : JSVal) (isRet : Bool)
  /-- `throw <literal>`: `raise JS_Throw(value)` -/
  | throwV (v : JSVal)
  /-- a `{ … }` statement list with nothing after the brace:
      `inner, should_abort = interpret_statement(inner, …)` -/
  | block (inner : Stmt)
  /-- `try { body } catch (name)? { catchBody } finally { finBody }`:
      `hasCatch`/`hasFin` record whether the `catch` resp. `finally`
      clauses are present in the statement text (the regex matches at
      jsinterp.py:995 and 1005), `catchName` the optional `(e)` error
      name -/
  | tryStmt (body : Stmt) (hasCatch : Bool) (catchName : Option String)
      (catchBody : Stmt) (hasFin : Bool) (finBody : Stmt)

/-- Models `interpret_statement('')` inlined: the budget check at entry, then
`if not expr: return None, should_return` (used for the empty trailing text
after a compound statement). -/
def interpretEmpty (n : ℤ) : Except JSErr (JSVal × Bool) :=
  if n < 0 then .error recursionLimitErr else .ok (.null, false)

/-- Models `interpret_statement` (jsinterp.py:838-1076) on the modelled statement
shapes: raise `Recursion limit reached` when the budget is negative,
decrement it, and dispatch.  The `try` branch follows jsinterp.py:983-1017
line by line: the whole try-block evaluation sits in a Python
`try/except Exception`, so *every* error is captured into `err`; a present
`catch` clause runs (in a `new_child` scope binding the error value) only
when `err` is set, and its result becomes `pending`; a present `finally`
clause always runs, and its return-signal wins; then a pending
return-signal is honoured, an uncaught `err` is re-raised, and otherwise
the empty trailing text is interpreted. -/
def interpretStmt : Stmt → LNS → ℤ → Except JSErr (JSVal × Bool)
  | .empty, _, n =>
    if n < 0 then .error recursionLimitErr
    else .ok (.null, false)
  | .litRet v isRet, _, n =>
    if n < 0 then .error recursionLimitErr
    else .ok (v, isRet)
  | .throwV v, _, n =>
    if n < 0 then .error recursionLimitErr
    else .error (.jsThrow v)
  | .block inner, env, n =>
    if n < 0 then .error recursionLimitErr
    else interpretStmt inner env (n - 1)
  | .tryStmt body hasCatch catchName catchBody hasFin finBody, env, n =>
    if n < 0 then .error recursionLimitErr
    else
      let n1 := n - 1
      match interpretStmt body env n1 with
      | .ok (v, true) => .ok (v, true)
      | bodyRes =>
        let err1 : Option JSErr :=
          match bodyRes with
          | .error e => some e
          | .ok _ => none
        let catchStep : Except JSErr (Option JSErr × (JSVal × Bool)) :=
          match err1 with
          | some e =>
            if hasCatch then
              let catchVars : Scope :=
                match catchName with
                | some nm => [(.name nm, errToVal e)]
                | none => []
              match interpretStmt catchBody (lnsNewChild env catchVars) n1 with
              | .error e2 => .error e2
              | .ok p => .ok (none, p)
            else .ok (some e, (.null, false))
          | none => .ok (none, (.null, false))
        match catchStep with
        | .error e2 => .error e2
        | .ok (err2, pending) =>
          let finStep : Except JSErr (Option (JSVal × Bool)) :=
            if hasFin then
              match interpretStmt finBody env n1 with
              | .error e3 => .error e3
              | .ok (v, true) => .ok (some (v, true))
              | .ok _ => .ok none
            else .ok none
          match finStep with
          | .error e3 => .error e3
          | .ok (some r) => .ok r
          | .ok none =>
            match pending with
            | (v, true) => .ok (v, true)
            | _ =>
              match err2 with
              | some e => .error e
              | none => interpretEmpty n1

/-- Models `zip_longest(argnames, args, fillvalue=JS_Undefined)` from
`build_function.resf` (jsinterp.py:1549): parameter names are paired with
arguments; missing arguments pad with `JS_Undefined`; surplus arguments are
paired with the fill value on the *name* side, i.e. keyed under the
`JS_Undefined` class itself. -/
def zipLongestFill : List String → List JSVal → List (Key × JSVal)
  | [], args => args.map (fun a => (.undefKey, a))
  | nm :: ns, [] => (.name nm, .undef) :: zipLongestFill ns []
  | nm :: ns, a :: rest => (.name nm, a) :: zipLongestFill ns rest

/-- The variable stack built by `resf` (jsinterp.py:1544-1551):
`global_stack = list(global_stack) or [{}]`, then
`global_stack[0].update(zip_longest(argnames, args, fillvalue=JS_Undefined))`,
then `global_stack[0].update(kwargs)`, then
`LocalNameSpace(*global_stack)`. -/
def buildVarStack (argnames : List String) (globalStack : List Scope)
    (args : List JSVal) (kwargs : List (String × JSVal)) : LNS :=
  let gs := if globalStack.isEmpty then [([] : Scope)] else globalStack
  let frame :=
    scopeUpdate (scopeUpdate (gs.headD []) (zipLongestFill argnames args))
      (kwargs.map (fun p => (Key.name p.1, p.2)))
  frame :: gs.tail

/-- Models `resf` from `build_function` (jsinterp.py:1547-1555): build the call
frame, interpret the body as a statement with `allow_recursion - 1`, and
`if should_abort: return ret` — with the Python fall-through returning
`None` when the body completes without a return signal. -/
def resf (argnames : List String) (code : Stmt) (globalStack : List Scope)
    (args : List JSVal) (kwargs : List (String × JSVal))
    (allowRecursion : ℤ) : Except JSErr JSVal :=
  match interpretStmt code (buildVarStack argnames globalStack args kwargs)
      (allowRecursion - 1) with
  | .error e => .error e
  | .ok (ret, true) => .ok ret
  | .ok (_, false) => .ok .null

/-- The operator names of the module's tables, in `_all_operators()` order:
`_SC_OPERATORS`, `_LOG_OPERATORS`, `_COMP_OPERATORS`, `_OPERATORS`,
`_UNARY_OPERATORS_X` (jsinterp.py:273-313, 702-714). -/
def allOpNames : List String :=
  ["?", "??", "||", "&&",
   "|", "^", "&",
   "===", "!==", "==", "!=", "<=", ">=", "<", ">",
   ">>", "<<", "+", "-", "*", "%", "/", "**",
   "void", "typeof", "!"]

/-- Models `JSInterpreter.__op_chars()` (jsinterp.py:607-613): the characters of
`';,['` plus every character of each non-alphabetic operator name. -/
def OP_CHARS : List Char :=
  ";,[".toList ++
    (allOpNames.filter (fun s => !(s.toList.all Char.isAlpha))).flatMap
      String.toList

/-- Index of the first occurrence of `pat` as a contiguous sublist of `l`
(`str.find`), `none` if absent. -/
def findSub : List Char → List Char → Option ℕ
  | [], pat => if pat.isEmpty then some 0 else none
  | c :: rest, pat =>
    if pat.isPrefixOf (c :: rest) then some 0
    else (findSub rest pat).map (· + 1)

/-- Python `s.find(pat, start)`: first occurrence at index ≥ `start`. -/
def findSubFrom (l pat : List Char) (start : ℕ) : Option ℕ :=
  (findSub (l.drop start) pat).map (· + start)

/-- Whether `pat` occurs as a contiguous sublist of `l`. -/
def hasSub (l pat : List Char) : Bool := (findSub l pat).isSome

/-- Python slice `l[i:j]`. -/
def sliceL (l : List Char) (i j : ℕ) : List Char := (l.drop i).take (j - i)

/-- The scanning state of `_separate` (jsinterp.py:627-634): the three
balance counters (keyed in the source by the closing bracket), the start
of the current piece, the split count, the delimiter-match position, the
current quote character, escape flag, the would-a-`/`-start-a-regex flag,
regex character-class flag, skip-delimiter countdown, and the span of a
block comment pending excision. -/
structure SepState where
  cParen : ℤ := 0
  cBrace : ℤ := 0
  cBracket : ℤ := 0
  start : ℕ := 0
  splits : ℕ := 0
  pos : ℕ := 0
  inQuote : Option Char := none
  escaping : Bool := false
  afterOp : Bool := true
  inRegexCharGroup : Bool := false
  skipping : ℕ := 0
  skipTxt : Option (ℕ × ℕ) := none
deriving Repr

/-- Computes `any(counters.values())`. -/
def anyCounters (st : SepState) : Bool :=
  st.cParen != 0 || st.cBrace != 0 || st.cBracket != 0

/-- The final `yield` of `_separate` (jsinterp.py:687-690): the tail piece,
with a pending block comment excised when it lies in the piece. -/
def finalPiece (expr : List Char) (st : SepState) : List Char :=
  match st.skipTxt with
  | some (a, b) =>
    if a ≥ st.start then sliceL expr st.start a ++ expr.drop (b + 1)
    else expr.drop st.start
  | none => expr.drop st.start

/-- Outcome of one character of the `_separate` scan: keep scanning with a
new state, or yield a piece (`stop` set when `max_split` is reached and the
loop breaks). -/
inductive SepAct where
  | cont (st : SepState)
  | emit (piece : List Char) (st : SepState) (stop : Bool)

/-- The bracket-counter update of one `_separate` iteration
(jsinterp.py:646-651): when not inside a quote, an opener bumps its
counter (`paren_delta = 1`), a closer decrements (`paren_delta = -1`). -/
def sepBracketStep (c : Char) (st : SepState) : ℤ × SepState :=
  if st.inQuote = none then
    if c = '(' then (1, { st with cParen := st.cParen + 1 })
    else if c = '{' then (1, { st with cBrace := st.cBrace + 1 })
    else if c = '[' then (1, { st with cBracket := st.cBracket + 1 })
    else if c = ')' then (-1, { st with cParen := st.cParen - 1 })
    else if c = '}' then (-1, { st with cBrace := st.cBrace - 1 })
    else if c = ']' then (-1, { st with cBracket := st.cBracket - 1 })
    else (0, st)
  else (0, st)

/-- The quote/regex/escape/after-operator update of one `_separate`
iteration (jsinterp.py:652-659), sequential like the Python assignments:
`escapingOld`/`afterOpOld` are the pre-iteration values the source reads. -/
def sepQuoteStep (c : Char) (escapingOld afterOpOld : Bool) (pd : ℤ)
    (st1 : SepState) : SepState :=
  let st2 :=
    if ¬ escapingOld then
      if (c = '\x27' ∨ c = '"' ∨ c = '/') ∧
          (st1.inQuote = some c ∨ st1.inQuote = none) then
        if st1.inQuote.isSome ∨ st1.afterOp ∨ c ≠ '/' then
          { st1 with inQuote :=
              if st1.inQuote.isSome ∧ ¬ st1.inRegexCharGroup then none
              else some c }
        else st1
      else if st1.inQuote = some '/' ∧ (c = '[' ∨ c = ']') then
        { st1 with inRegexCharGroup := c = '[' }
      else st1
    else st1
  let st3 := { st2 with
    escaping := ¬ escapingOld ∧ st2.inQuote.isSome ∧ c = '\\' }
  { st3 with
    afterOp := st3.inQuote = none ∧
      (OP_CHARS.contains c ∨ pd > 0 ∨ (afterOpOld ∧ c.isWhitespace)) }

/-- One iteration of the `for idx, char in enumerate(expr)` loop of
`_separate` (jsinterp.py:635-685), as a pure function of the character,
the remaining characters, the index and the state.  Mirrors the source
order: pending-comment skip; block-comment detection; bracket counters;
quote/regex tracking; escape and after-operator flags; then the delimiter
matcher with its skip-delimiter and `max_split` handling. -/
def sepStep (expr d : List Char) (maxSplit : ℕ) (skipDelims : List (List Char))
    (c : Char) (rest : List Char) (idx : ℕ) (st : SepState) : SepAct :=
  let pendingSkip : Bool :=
    match st.skipTxt with
    | some (_, b) => idx ≤ b
    | none => false
  if pendingSkip then
    .cont st
  else
    let commentSpan : Option (ℕ × ℕ) :=
      if st.inQuote = none ∧ c = '/' ∧ rest.head? = some '*' then
        match findSubFrom (expr.drop idx) ['*', '/'] 2 with
        | some k => some (idx, idx + k + 1)
        | none => none
      else none
    match commentSpan with
    | some ab => .cont { st with skipTxt := some ab }
    | none =>
      let pdst := sepBracketStep c st
      let pd := pdst.1
      let st4 := sepQuoteStep c st.escaping st.afterOp pd pdst.2
      let delimLen := d.length - 1
      if c ≠ d.getD st.pos ' ' ∨ anyCounters st4 ∨ st4.inQuote.isSome then
        .cont { st4 with pos := 0, skipping := 0 }
      else if st.skipping > 0 then
        .cont { st4 with skipping := st.skipping - 1 }
      else
        let skipping2 : ℕ :=
          if st.pos = 0 ∧ ¬ skipDelims.isEmpty then
            match skipDelims.find?
                (fun sd => sd.isPrefixOf (expr.drop idx) ∧ ¬ sd.isEmpty) with
            | some sd => sd.length - 1
            | none => 0
          else 0
        if skipping2 > 0 then .cont { st4 with skipping := skipping2 }
        else if st.pos < delimLen then .cont { st4 with pos := st.pos + 1 }
        else
          let piece :=
            match st.skipTxt with
            | some (a, b) =>
              if a ≥ st.start ∧ b ≤ idx - delimLen then
                sliceL expr st.start a ++ sliceL expr (b + 1) (idx - delimLen)
              else sliceL expr st.start (idx - delimLen)
            | none => sliceL expr st.start (idx - delimLen)
          let st5 := { st4 with
            skipTxt := none, start := idx + 1, pos := 0,
            splits := st.splits + 1 }
          .emit piece st5 (maxSplit ≠ 0 ∧ st.splits + 1 ≥ maxSplit)

/-- The generator loop of `_separate`: scan the remaining characters,
yielding pieces; on `break` (or at the end) the final piece is yielded. -/
def sepLoop (expr d : List Char) (maxSplit : ℕ)
    (skipDelims : List (List Char)) :
    List Char → ℕ → SepState → List (List Char)
  | [], _, st => [finalPiece expr st]
  | c :: rest, idx, st =>
    match sepStep expr d maxSplit skipDelims c rest idx st with
    | .cont st1 => sepLoop expr d maxSplit skipDelims rest (idx + 1) st1
    | .emit p st1 true => [p, finalPiece expr st1]
    | .emit p st1 false =>
      p :: sepLoop expr d maxSplit skipDelims rest (idx + 1) st1

/-- Models `JSInterpreter._separate(expr, delim, max_split, skip_delims)`
(jsinterp.py:623-690), with `maxSplit = 0` playing `max_split=None` (the
source tests `max_split and splits >= max_split`, so 0 and `None` agree).
An empty expression yields nothing at all (`if not expr: return`). -/
def separate (expr delim : String) (maxSplit : ℕ) (skipDelims : List String) :
    List String :=
  if expr = "" then []
  else
    (sepLoop expr.toList delim.toList maxSplit (skipDelims.map String.toList)
        expr.toList 0 {}).map (fun l => ⟨l⟩)

/-- Python `str.split(sep, maxsplit)` with a non-empty separator `sep`:
split at each occurrence, keeping empty pieces, with at most `maxsplit`
splits when `maxsplit ≥ 0` (a negative `maxsplit` means no limit).  The
fuel argument only bounds the recursion; every split consumes at least one
character, so `s.length + 1` fuel always suffices. -/
def pySplitAux (sep : List Char) : ℕ → List Char → ℤ → List (List Char)
  | 0, s, _ => [s]
  | fuel + 1, s, maxsplit =>
    if maxsplit = 0 then [s]
    else
      match findSub s sep with
      | none => [s]
      | some i =>
        s.take i :: pySplitAux sep fuel (s.drop (i + sep.length)) (maxsplit - 1)

/-- Python `obj.split(sep, maxsplit)` on strings. -/
def pySplit (s sep : String) (maxsplit : ℤ) : List String :=
  (pySplitAux sep.toList (s.toList.length + 1) s.toList maxsplit).map
    (fun l => ⟨l⟩)

/-- The separator-dependent tail of the `split` method (jsinterp.py:1319-1323):
`obj.split(argvals[0], limit - 1)` for a truthy non-`JS_Undefined` separator
(the host `str.split` raises `TypeError` on a non-string separator), else
`list(obj)[:limit or None]` — the characters, all of them when `limit` is 0.
The `JS_RegExp` separator branch (jsinterp.py:1297-1318) is omitted: the
modelled value space carries no regexp values and no claim reaches it. -/
def eval_split_sep (obj : String) (sep0 : JSVal) (limit : ℤ) :
    Except JSErr JSVal :=
  if pyTruthy sep0 ∧ ¬ sep0.isUndef then
    match sep0 with
    | .str s => .ok (.arr ((pySplit obj s (limit - 1)).map .str))
    | _ => .error (.pyErr "TypeError: must be str or None")
  else
    let chars := obj.toList.map (fun c => JSVal.str ⟨[c]⟩)
    .ok (.arr (if limit = 0 then chars else chars.take limit.toNat))

/-- The `split` method of `eval_method` (jsinterp.py:1286-1323): at most two
arguments; an explicit limit must satisfy `isinstance(limit, int) and
limit >= 0` (Python bools pass as ints) or the interpreter exception
`'split integer limit >= 0'` is raised; an explicit limit 0 returns `[]`
before the separator is even looked at; no arguments behave as a single
`JS_Undefined` separator. -/
def eval_split (obj : String) (argvals : List JSVal) : Except JSErr JSVal :=
  match argvals with
  | [] => eval_split_sep obj .undef 0
  | [sep0] => eval_split_sep obj sep0 0
  | [sep0, limitv] =>
    match pyIntOf limitv with
    | some n =>
      if ¬ (0 ≤ n) then .error (.interp "split integer limit >= 0")
      else if n = 0 then .ok (.arr [])
      else eval_split_sep obj sep0 n
    | none => .error (.interp "split integer limit >= 0")
  | _ => .error (.interp "split takes at most two arguments")

/-- Python string indexing `s[i]`: non-negative indices from the front,
negative indices from the back, `IndexError` (`none`) out of range. -/
def pyStrIndex (s : List Char) (i : ℤ) : Option Char :=
  if 0 ≤ i then s.get? i.toNat
  else if 0 ≤ (s.length : ℤ) + i then s.get? ((s.length : ℤ) + i).toNat
  else none

/-- The `charCodeAt` method of `eval_method` (jsinterp.py:1380-1386): the
index is `argvals[0]` when present and a Python int (bools included),
else 0; an index `≥ len(obj)` returns `None`; otherwise `ord(obj[idx])`
— where Python's negative indexing applies, and an index below
`-len(obj)` raises `IndexError`. -/
def eval_charCodeAt (obj : String) (argvals : List JSVal) :
    Except JSErr JSVal :=
  let idx : ℤ :=
    match argvals.head? with
    | some v => (pyIntOf v).getD 0
    | none => 0
  if idx ≥ (obj.length : ℤ) then .ok .null
  else
    match pyStrIndex obj.toList idx with
    | some c => .ok (.num (.int c.toNat))
    | none => .error (.pyErr "IndexError: string index out of range")

/-- The `shift`/`pop` methods of `eval_method` (jsinterp.py:1354-1357): no
arguments allowed; `obj.pop(0 if member == 'shift' else -1)` when the list
is non-empty, else `JS_Undefined`.  The in-place mutation is modelled by
returning the new list alongside the result. -/
def eval_shift_pop (member : String) (obj : List JSVal)
    (argvals : List JSVal) : Except JSErr (JSVal × List JSVal) :=
  if ¬ argvals.isEmpty then
    .error (.interp (member ++ " does not take any arguments"))
  else if obj.length > 0 then
    if member = "shift" then .ok (obj.headD .undef, obj.tail)
    else .ok (obj.getLast?.getD .undef, obj.dropLast)
  else .ok (.undef, obj)

lemma pyOr_zero (a : ℤ) (h : 0 ≤ a) : pyOr a 0 = a := by
  obtain ⟨m, rfl⟩ := Int.eq_ofNat_of_zero_le h
  show Int.lor (Int.ofNat m) (Int.ofNat 0) = Int.ofNat m
  rw [show Int.lor (Int.ofNat m) (Int.ofNat 0) = Int.ofNat (m ||| 0) from rfl]
  simp

lemma js_bit_or_int (x : ℤ) :
    js_bit_or (.num (.int x)) (.num (.int 0)) = x % 4294967296 := by
  have h0 : (0 : ℤ) ≤ x % 4294967296 := Int.emod_nonneg _ (by norm_num)
  have hlt : x % 4294967296 < 4294967296 := Int.emod_lt_of_pos _ (by norm_num)
  show (pyOr (zeroise (.num (.int x)) false) (zeroise (.num (.int 0)) false)) %
      4294967296 = x % 4294967296
  rw [show zeroise (.num (.int x)) false = x % 4294967296 from rfl,
    show zeroise (.num (.int 0)) false = 0 from rfl,
    pyOr_zero _ h0, Int.emod_eq_of_lt h0 hlt]

/-- C1 (corrected): for every integer `x`, evaluating `x | 0` returns
`ToUint32(x)` — `x` reduced modulo 2³² into the *unsigned* range
`[0, 2³²)`, not `ToInt32(x)`'s signed range; shift amounts are masked to
their low 5 bits so that `1 << 32 = 1`; and NaN, the infinities, and
non-numeric strings used as bitwise/shift operands become 0. -/
theorem C1_bit_masking (x k : ℤ) (a : JSVal) (b : Bool) (s : String) :
    js_bit_or (.num (.int x)) (.num (.int 0)) = x % 4294967296 ∧
    (0 ≤ js_bit_or (.num (.int x)) (.num (.int 0)) ∧
      js_bit_or (.num (.int x)) (.num (.int 0)) < 4294967296) ∧
    js_lshift (.num (.int 1)) (.num (.int 32)) = 1 ∧
    js_lshift a (.num (.int (k + 32))) = js_lshift a (.num (.int k)) ∧
    (zeroise (.num .nan) b = 0 ∧ zeroise (.num .inf) b = 0 ∧
      zeroise (.num .neginf) b = 0) ∧
    (pyFloatParse s = none → zeroise (.str s) b = 0) := by
  refine ⟨js_bit_or_int x, ?_, by decide, ?_, ⟨rfl, rfl, rfl⟩, ?_⟩
  · rw [js_bit_or_int]
    exact ⟨Int.emod_nonneg _ (by norm_num), Int.emod_lt_of_pos _ (by norm_num)⟩
  · show js_bit_op pyLshift true a (.num (.int (k + 32))) =
      js_bit_op pyLshift true a (.num (.int k))
    unfold js_bit_op
    rw [show zeroise (.num (.int (k + 32))) true = (k + 32) % 32 from rfl,
      show zeroise (.num (.int k)) true = k % 32 from rfl,
      show (k + 32) % 32 = k % 32 by omega]
  · intro h
    simp [zeroise, pyIntOf, pyFloatConv, h]

/-- C1 counterexample: at `x = -1` the code returns 4294967295
(`ToUint32(-1)`), while `ToInt32(-1) = -1` — so `x | 0` does *not* return
`ToInt32(x)` as the claim states. -/
theorem C1_counterexample :
    js_bit_or (.num (.int (-1))) (.num (.int 0)) = 4294967295 ∧
    toInt32spec (-1) = -1 ∧ (4294967295 : ℤ) ≠ (-1 : ℤ) := by
  refine ⟨?_, by decide, by decide⟩
  rw [js_bit_or_int]
  decide

/-- C1 witness: the masking theorem applied at concrete inputs, with the
non-numeric-string hypothesis discharged at `"abc"`. -/
theorem C1_witness :
    zeroise (.str "abc") false = 0 ∧
    js_bit_or (.num (.int 7)) (.num (.int 0)) = 7 % 4294967296 ∧
    js_lshift (.num (.int 5)) (.num (.int (1 + 32))) =
      js_lshift (.num (.int 5)) (.num (.int 1)) :=
  ⟨(C1_bit_masking 7 1 (.num (.int 5)) false "abc").2.2.2.2.2 rfl,
   (C1_bit_masking 7 1 (.num (.int 5)) false "abc").1,
   (C1_bit_masking 7 1 (.num (.int 5)) false "abc").2.2.2.1⟩

lemma coerceArith_int (n : ℤ) : coerceArith (.num (.int n)) = .float n := by
  by_cases h : n = 0 <;> simp [coerceArith, pyTruthy, pyFloatConv, h]

lemma coerceArith_float (q : ℚ) : coerceArith (.num (.float q)) = .float q := by
  by_cases h : q = 0 <;> simp [coerceArith, pyTruthy, pyFloatConv, h]

/-- C2 (corrected): for numeric operands with divisor 0, the division
operator yields `+Infinity` for *every* non-zero dividend — int, float or
either infinity, the sign of the dividend is not honoured (`_Infinity` is
the module's single positive infinity, returned whenever `div and (a or b)`
holds on a `ZeroDivisionError`) — NaN when the dividend is 0 as well, and
NaN for a NaN dividend (filtered before the division). -/
theorem C2_div_zero (n : ℤ) (q : ℚ) :
    (n ≠ 0 → js_div (.num (.int n)) (.num (.int 0)) = .inf) ∧
    (q ≠ 0 → js_div (.num (.float q)) (.num (.float 0)) = .inf) ∧
    (q ≠ 0 → js_div (.num (.float q)) (.num (.int 0)) = .inf) ∧
    js_div (.num .inf) (.num (.int 0)) = .inf ∧
    js_div (.num .neginf) (.num (.int 0)) = .inf ∧
    js_div (.num .nan) (.num (.int 0)) = .nan ∧
    js_div (.num (.int 0)) (.num (.int 0)) = .nan ∧
    js_div (.num (.float 0)) (.num (.float 0)) = .nan ∧
    js_div (.num (.int 0)) (.num (.float 0)) = .nan := by
  refine ⟨?_, ?_, ?_, by decide, by decide, by decide, by decide, by decide,
    by decide⟩
  · intro h
    have hq : (n : ℚ) ≠ 0 := Int.cast_ne_zero.mpr h
    simp [js_div, js_arith_op, JSVal.isUndef, coerceArith_int, opTruediv,
      jnumTruthy, hq]
  · intro h
    simp [js_div, js_arith_op, JSVal.isUndef, coerceArith_float, opTruediv,
      jnumTruthy, h]
  · intro h
    simp [js_div, js_arith_op, JSVal.isUndef, coerceArith_float,
      coerceArith_int, opTruediv, jnumTruthy, h]

/-- C2 counterexample: `-1 / 0` (and likewise `-Infinity / 0`) evaluates to
`+Infinity`, not the `-Infinity` the claim requires for a negative
dividend. -/
theorem C2_counterexample :
    js_div (.num (.int (-1))) (.num (.int 0)) = .inf ∧
    js_div (.num .neginf) (.num (.int 0)) = .inf ∧
    JNum.inf ≠ JNum.neginf := ⟨by decide, by decide, by decide⟩

/-- C2 witness: the division theorem applied at the dividends `3`, `1/2`
and `-5`, discharging each non-zero hypothesis. -/
theorem C2_witness :
    js_div (.num (.int 3)) (.num (.int 0)) = .inf ∧
    js_div (.num (.float (1/2))) (.num (.float 0)) = .inf ∧
    js_div (.num (.float (-5))) (.num (.int 0)) = .inf :=
  ⟨(C2_div_zero 3 (1/2)).1 (by decide),
   (C2_div_zero 3 (1/2)).2.1 (by norm_num),
   (C2_div_zero 3 (-5)).2.2.1 (by norm_num)⟩

/-- C7 (confirmed): for every value `x`, `x ** 0` returns 1 — the code
short-circuits any Python-falsy exponent, so `0 ** 0`, `NaN ** 0` and
`Infinity ** 0` are all 1 (the exponent 0 itself is falsy whether it is
the int 0 or the float 0.0). -/
theorem C7_exp_zero (a : JSVal) :
    js_exp a (.num (.int 0)) = .num (.int 1) ∧
    js_exp a (.num (.float 0)) = .num (.int 1) ∧
    js_exp (.num (.int 0)) (.num (.int 0)) = .num (.int 1) ∧
    js_exp (.num .nan) (.num (.int 0)) = .num (.int 1) ∧
    js_exp (.num .inf) (.num (.int 0)) = .num (.int 1) := by
  refine ⟨?_, ?_, rfl, rfl, rfl⟩ <;> simp [js_exp, pyTruthy]

/-- C10 (confirmed): `pop`/`shift` on an empty array return `JS_Undefined`
without raising and leave the array unchanged; on a non-empty array `pop`
removes and returns the last element and `shift` the first, shrinking the
array by exactly one element. -/
theorem C10_pop_shift (x : JSVal) (xs : List JSVal) :
    eval_shift_pop "pop" [] [] = .ok (.undef, []) ∧
    eval_shift_pop "shift" [] [] = .ok (.undef, []) ∧
    eval_shift_pop "pop" (xs ++ [x]) [] = .ok (x, xs) ∧
    (xs ++ [x]).length = xs.length + 1 ∧
    eval_shift_pop "shift" (x :: xs) [] = .ok (x, xs) := by
  refine ⟨rfl, rfl, ?_, by simp, ?_⟩ <;>
    simp [eval_shift_pop]

/-- C9 (corrected): `charCodeAt(i)` with `i ≥ len(s)` returns `None` (JS
`null`, not NaN and not an error); a missing or non-int argument defaults
the index to 0; and the method never raises for an index `≥ -len(s)` — but
Python's negative indexing means an integer index below `-len(s)` raises
`IndexError`, so "never raises on a string receiver" does not hold. -/
theorem C9_charCodeAt (s : String) (i : ℤ) (v : JSVal) (args : List JSVal) :
    ((s.length : ℤ) ≤ i → eval_charCodeAt s [.num (.int i)] = .ok .null) ∧
    (pyIntOf v = none →
      eval_charCodeAt s (v :: args) = eval_charCodeAt s [.num (.int 0)]) ∧
    (-(s.length : ℤ) ≤ i → ∃ r, eval_charCodeAt s [.num (.int i)] = .ok r) ∧
    (i < -(s.length : ℤ) → eval_charCodeAt s [.num (.int i)] =
      .error (.pyErr "IndexError: string index out of range")) := by
  have hlen : s.toList.length = s.length := rfl
  refine ⟨?_, ?_, ?_, ?_⟩
  · intro h
    simp only [eval_charCodeAt, List.head?_cons, pyIntOf, Option.getD_some]
    rw [if_pos (by exact h)]
  · intro h
    simp only [eval_charCodeAt, List.head?_cons]
    rw [h]
    simp only [Option.getD_none, pyIntOf, Option.getD_some]
  · intro h
    by_cases hge : (s.length : ℤ) ≤ i
    · refine ⟨.null, ?_⟩
      simp only [eval_charCodeAt, List.head?_cons, pyIntOf, Option.getD_some]
      rw [if_pos (by exact hge)]
    · push_neg at hge
      have hidx : ∃ c, pyStrIndex s.toList i = some c := by
        unfold pyStrIndex
        by_cases h0 : 0 ≤ i
        · rw [if_pos h0]
          have : ¬ s.toList.length ≤ i.toNat := by omega
          rcases Option.ne_none_iff_exists'.mp
            (fun hno => this (List.get?_eq_none.mp hno)) with ⟨c, hc⟩
          exact ⟨c, hc⟩
        · rw [if_neg h0, if_pos (by omega)]
          have : ¬ s.toList.length ≤ ((s.toList.length : ℤ) + i).toNat := by
            omega
          rcases Option.ne_none_iff_exists'.mp
            (fun hno => this (List.get?_eq_none.mp hno)) with ⟨c, hc⟩
          rw [hlen]
          exact ⟨c, hc⟩
      obtain ⟨c, hc⟩ := hidx
      refine ⟨.num (.int c.toNat), ?_⟩
      simp only [eval_charCodeAt, List.head?_cons, pyIntOf, Option.getD_some]
      rw [if_neg (by omega), hc]
  · intro h
    have hneg : ¬ (s.length : ℤ) ≤ i := by omega
    simp only [eval_charCodeAt, List.head?_cons, pyIntOf, Option.getD_some]
    rw [if_neg (by omega)]
    have hidx : pyStrIndex s.toList i = none := by
      unfold pyStrIndex
      rw [if_neg (by omega), if_neg (by rw [hlen]; omega)]
    rw [hidx]

/-- C9 counterexample: `"ab".charCodeAt(-5)` raises (an `IndexError`
escaping the host indexing), refuting "charCodeAt never raises on a string
receiver". -/
theorem C9_counterexample :
    eval_charCodeAt "ab" [.num (.int (-5))] =
      .error (.pyErr "IndexError: string index out of range") := rfl

/-- C9 witness: the theorem applied on `"ab"` at indexes 5, 0 (via a
non-int argument) and -2, and at the raising index -5. -/
theorem C9_witness :
    eval_charCodeAt "ab" [.num (.int 5)] = .ok .null ∧
    eval_charCodeAt "ab" [.str "q"] = eval_charCodeAt "ab" [.num (.int 0)] ∧
    (∃ r, eval_charCodeAt "ab" [.num (.int (-2))] = .ok r) ∧
    eval_charCodeAt "ab" [.num (.int (-3))] =
      .error (.pyErr "IndexError: string index out of range") :=
  ⟨(C9_charCodeAt "ab" 5 (.str "q") []).1 (by decide),
   (C9_charCodeAt "ab" 5 (.str "q") []).2.1 rfl,
   (C9_charCodeAt "ab" (-2) (.str "q") []).2.2.1 (by decide),
   (C9_charCodeAt "ab" (-3) (.str "q") []).2.2.2 (by decide)⟩

lemma pySplitAux_length (sep : List Char) (fuel : ℕ) :
    ∀ (s : List Char) (m : ℤ), 0 ≤ m →
      (pySplitAux sep fuel s m).length ≤ m.toNat + 1 := by
  induction fuel with
  | zero => intro s m _; simp [pySplitAux]
  | succ f ih =>
    intro s m hm
    simp only [pySplitAux]
    split
    · simp
    · rename_i hm0
      split
      · simp
      · rename_i i _
        have h1 := ih (s.drop (i + sep.length)) (m - 1) (by omega)
        simp only [List.length_cons]
        omega

lemma pySplit_length (s sep : String) (m : ℤ) (hm : 0 ≤ m) :
    (pySplit s sep m).length ≤ m.toNat + 1 := by
  unfold pySplit
  rw [List.length_map]
  exact pySplitAux_length _ _ _ _ hm

/-- C8 (confirmed): `split` with an explicit limit obeys the JS limit
semantics: limit 0 (also the Python-int `False`) returns `[]` regardless of
the receiver and the separator; limit ≥ 1 produces at most `limit` pieces;
a negative or non-int limit is rejected with the interpreter exception
`'split integer limit >= 0'` (the code's `RangeError` kind). -/
theorem C8_split_limit (obj : String) (sep0 : JSVal) (n : ℤ) (lv : JSVal)
    (l : List JSVal) :
    eval_split obj [sep0, .num (.int 0)] = .ok (.arr []) ∧
    eval_split obj [sep0, .bool false] = .ok (.arr []) ∧
    (1 ≤ n → eval_split obj [sep0, .num (.int n)] = .ok (.arr l) →
      l.length ≤ n.toNat) ∧
    (n < 0 → eval_split obj [sep0, .num (.int n)] =
      .error (.interp "split integer limit >= 0")) ∧
    (pyIntOf lv = none → eval_split obj [sep0, lv] =
      .error (.interp "split integer limit >= 0")) := by
  refine ⟨rfl, rfl, ?_, ?_, ?_⟩
  · intro hn hok
    simp only [eval_split, pyIntOf] at hok
    rw [if_neg (by omega), if_neg (by omega)] at hok
    unfold eval_split_sep at hok
    split at hok
    · split at hok
      · rename_i x1 s1 h1
        simp only [Except.ok.injEq, JSVal.arr.injEq] at hok
        subst hok
        rw [List.length_map]
        calc (pySplit obj s1 (n - 1)).length ≤ (n - 1).toNat + 1 :=
              pySplit_length _ _ _ (by omega)
          _ ≤ n.toNat := by omega
      · exact absurd hok (by simp)
    · simp only [Except.ok.injEq, JSVal.arr.injEq] at hok
      rw [if_neg (by omega)] at hok
      subst hok
      simp [List.length_take]
  · intro hn
    simp only [eval_split, pyIntOf]
    rw [if_pos (by omega)]
  · intro h
    simp only [eval_split]
    rw [h]

/-- C8 witness: the limit theorem applied concretely: pieces of
`"a,b,c".split(",", 2)` number at most 2; negative and float limits raise. -/
theorem C8_witness :
    [JSVal.str "a", .str "b,c"].length ≤ (2 : ℤ).toNat ∧
    eval_split "xy" [.str ",", .num (.int (-1))] =
      .error (.interp "split integer limit >= 0") ∧
    eval_split "xy" [.str ",", .num (.float 2)] =
      .error (.interp "split integer limit >= 0") :=
  ⟨(C8_split_limit "a,b,c" (.str ",") 2 (.num (.float 2))
      [.str "a", .str "b,c"]).2.2.1 (by decide) rfl,
   (C8_split_limit "xy" (.str ",") (-1) (.num (.float 2)) []).2.2.2.1
      (by decide),
   (C8_split_limit "xy" (.str ",") (-1) (.num (.float 2)) []).2.2.2.2 rfl⟩

/-- C4 (corrected): the `try` frame's `except Exception` catches *every*
error raised while interpreting the try block — including the
`'Recursion limit reached'` budget error, which has no distinguished
uncatchable type — and the `finally` block, when present, runs in all
cases: after normal completion, after a caught error, and after an
uncaught error (which is re-raised after `finally` unless `finally`
itself signals a return, which wins). -/
theorem C4_try_catch_finally (body cb cb0 fb : Stmt) (nm : String)
    (cn : Option String) (kc : Bool) (env : LNS) (n : ℤ) (e : JSErr)
    (v w : JSVal) :
    (0 ≤ n → interpretStmt body env (n - 1) = .error e →
      interpretStmt cb (lnsNewChild env [(.name nm, errToVal e)]) (n - 1) =
        .ok (v, true) →
      interpretStmt (.tryStmt body true (some nm) cb false fb) env n =
        .ok (v, true)) ∧
    (1 ≤ n → interpretStmt body env (n - 1) = .error e →
      interpretStmt cb (lnsNewChild env [(.name nm, errToVal e)]) (n - 1) =
        .ok (v, false) →
      interpretStmt (.tryStmt body true (some nm) cb false fb) env n =
        .ok (.null, false)) ∧
    (0 ≤ n → interpretStmt body env (n - 1) = .ok (v, false) →
      interpretStmt fb env (n - 1) = .ok (w, true) →
      interpretStmt (.tryStmt body kc cn cb0 true fb) env n = .ok (w, true)) ∧
    (0 ≤ n → interpretStmt body env (n - 1) = .error e →
      interpretStmt cb (lnsNewChild env [(.name nm, errToVal e)]) (n - 1) =
        .ok (v, false) →
      interpretStmt fb env (n - 1) = .ok (w, true) →
      interpretStmt (.tryStmt body true (some nm) cb true fb) env n =
        .ok (w, true)) ∧
    (0 ≤ n → interpretStmt body env (n - 1) = .error e →
      interpretStmt fb env (n - 1) = .ok (w, true) →
      interpretStmt (.tryStmt body false cn cb0 true fb) env n =
        .ok (w, true)) ∧
    (0 ≤ n → interpretStmt body env (n - 1) = .error e →
      interpretStmt fb env (n - 1) = .ok (w, false) →
      interpretStmt (.tryStmt body false cn cb0 true fb) env n =
        .error e) := by
  refine ⟨?_, ?_, ?_, ?_, ?_, ?_⟩
  · intro hn hb hc
    simp only [interpretStmt]
    rw [if_neg (by omega)]
    simp only [hb, hc]
    simp
  · intro hn hb hc
    simp only [interpretStmt]
    rw [if_neg (by omega)]
    simp only [hb, hc]
    simp [interpretEmpty]
    omega
  · intro hn hb hf
    simp only [interpretStmt]
    rw [if_neg (by omega)]
    simp only [hb, hf]
    simp
  · intro hn hb hc hf
    simp only [interpretStmt]
    rw [if_neg (by omega)]
    simp only [hb, hc, hf]
    simp
  · intro hn hb hf
    simp only [interpretStmt]
    rw [if_neg (by omega)]
    simp only [hb, hf]
    simp
  · intro hn hb hf
    simp only [interpretStmt]
    rw [if_neg (by omega)]
    simp only [hb, hf]
    simp

/-- C4 counterexample: with budget 1, the try body (a nested block) raises
the `'Recursion limit reached'` error, yet an interpreted `catch` catches
it and the whole try statement completes normally — the error does not
unwind the call and *is* catchable, contrary to the claim. -/
theorem C4_counterexample :
    interpretStmt (.block .empty) [[]] 0 = .error recursionLimitErr ∧
    interpretStmt
        (.tryStmt (.block .empty) true (some "e") .empty false .empty)
        [[]] 1 = .ok (.null, false) := ⟨rfl, rfl⟩

/-- C4 witness: the try-frame theorem applied at budget 2 to a body that
throws the value 42, a catch that returns 7, and a finally returning 9. -/
theorem C4_witness :
    interpretStmt
        (.tryStmt (.throwV (.num (.int 42))) true (some "e")
          (.litRet (.num (.int 7)) true) false .empty) [[]] 2 =
      .ok (.num (.int 7), true) ∧
    interpretStmt
        (.tryStmt (.throwV (.num (.int 42))) true (some "e")
          (.litRet (.num (.int 7)) false) false .empty) [[]] 2 =
      .ok (.null, false) ∧
    interpretStmt
        (.tryStmt (.litRet (.num (.int 1)) false) true (some "e") .empty
          true (.litRet (.num (.int 9)) true)) [[]] 2 =
      .ok (.num (.int 9), true) ∧
    interpretStmt
        (.tryStmt (.throwV (.num (.int 42))) true (some "e")
          (.litRet (.num (.int 7)) false) true
          (.litRet (.num (.int 9)) true)) [[]] 2 =
      .ok (.num (.int 9), true) ∧
    interpretStmt
        (.tryStmt (.throwV (.num (.int 42))) false none .empty true
          (.litRet (.num (.int 9)) true)) [[]] 2 =
      .ok (.num (.int 9), true) ∧
    interpretStmt
        (.tryStmt (.throwV (.num (.int 42))) false none .empty true
          (.litRet (.num (.int 9)) false)) [[]] 2 =
      .error (.jsThrow (.num (.int 42))) := by
  have h := C4_try_catch_finally (.throwV (.num (.int 42)))
    (.litRet (.num (.int 7)) true) .empty (.litRet (.num (.int 9)) true) "e"
    (some "e") true [[]] 2 (.jsThrow (.num (.int 42))) (.num (.int 7))
    (.num (.int 9))
  refine ⟨h.1 (by omega) rfl rfl, ?_, ?_, ?_, ?_, ?_⟩
  · exact (C4_try_catch_finally (.throwV (.num (.int 42)))
      (.litRet (.num (.int 7)) false) .empty .empty "e" none true [[]] 2
      (.jsThrow (.num (.int 42))) (.num (.int 7)) .undef).2.1
      (by omega) rfl rfl
  · exact (C4_try_catch_finally (.litRet (.num (.int 1)) false) .empty
      .empty (.litRet (.num (.int 9)) true) "e" (some "e") true [[]] 2
      (.jsThrow .null) (.num (.int 1)) (.num (.int 9))).2.2.1
      (by omega) rfl rfl
  · exact (C4_try_catch_finally (.throwV (.num (.int 42)))
      (.litRet (.num (.int 7)) false) .empty (.litRet (.num (.int 9)) true)
      "e" none true [[]] 2 (.jsThrow (.num (.int 42))) (.num (.int 7))
      (.num (.int 9))).2.2.2.1 (by omega) rfl rfl rfl
  · exact (C4_try_catch_finally (.throwV (.num (.int 42))) .empty .empty
      (.litRet (.num (.int 9)) true) "e" none false [[]] 2
      (.jsThrow (.num (.int 42))) .undef (.num (.int 9))).2.2.2.2.1
      (by omega) rfl rfl
  · exact (C4_try_catch_finally (.throwV (.num (.int 42))) .empty .empty
      (.litRet (.num (.int 9)) false) "e" none false [[]] 2
      (.jsThrow (.num (.int 42))) .undef (.num (.int 9))).2.2.2.2.2
      (by omega) rfl rfl

lemma scopeGet_scopeSet (s : Scope) (k0 k : Key) (v : JSVal) :
    scopeGet (scopeSet s k0 v) k = if k0 = k then some v else scopeGet s k := by
  induction s with
  | nil =>
    by_cases h : k0 = k <;> simp [scopeSet, scopeGet, h]
  | cons p t ih =>
    simp only [scopeSet]
    by_cases hp : p.1 = k0
    · rw [if_pos hp]
      by_cases h : k0 = k
      · subst h; simp [scopeGet]
      · simp [scopeGet, h, hp]
    · rw [if_neg hp]
      by_cases h : k0 = k
      · subst h
        simp only [scopeGet, if_neg hp, ih, if_pos rfl]
      · simp only [scopeGet, ih, if_neg h]

lemma scopeGet_scopeUpdate (kvs : List (Key × JSVal)) :
    ∀ (s : Scope) (k : Key),
      scopeGet (scopeUpdate s kvs) k = (lastVal kvs k).or (scopeGet s k) := by
  induction kvs with
  | nil => intro s k; simp [scopeUpdate, lastVal]
  | cons p t ih =>
    intro s k
    show scopeGet (scopeUpdate (scopeSet s p.1 p.2) t) k = _
    rw [ih, scopeGet_scopeSet]
    simp only [lastVal]
    cases hlv : lastVal t k with
    | some w => simp
    | none =>
      by_cases h : p.1 = k <;> simp [h]

lemma lastVal_eq_none (kvs : List (Key × JSVal)) (k : Key)
    (h : ∀ p ∈ kvs, p.1 ≠ k) : lastVal kvs k = none := by
  induction kvs with
  | nil => rfl
  | cons p t ih =>
    simp only [lastVal]
    rw [ih (fun q hq => h q (List.mem_cons_of_mem _ hq))]
    simp [h p (List.mem_cons_self _ _)]

lemma lastVal_append (l1 l2 : List (Key × JSVal)) (k : Key) :
    lastVal (l1 ++ l2) k = (lastVal l2 k).or (lastVal l1 k) := by
  induction l1 with
  | nil => simp [lastVal]
  | cons p t ih =>
    simp only [List.cons_append, lastVal, List.append_eq]
    rw [ih]
    cases lastVal l2 k <;> cases lastVal t k <;> simp [Option.or]

lemma zipLongestFill_keys (ns : List String) :
    ∀ (args : List JSVal) (p : Key × JSVal), p ∈ zipLongestFill ns args →
      p.1 = Key.undefKey ∨ ∃ nm ∈ ns, p.1 = Key.name nm := by
  induction ns with
  | nil =>
    intro args p hp
    simp only [zipLongestFill, List.mem_map] at hp
    obtain ⟨a, _, rfl⟩ := hp
    exact Or.inl rfl
  | cons nm t ih =>
    intro args p hp
    cases args with
    | nil =>
      simp only [zipLongestFill, List.mem_cons] at hp
      rcases hp with rfl | hp
      · exact Or.inr ⟨nm, List.mem_cons_self _ _, rfl⟩
      · rcases ih [] p hp with h | ⟨x, hx, hk⟩
        · exact Or.inl h
        · exact Or.inr ⟨x, List.mem_cons_of_mem _ hx, hk⟩
    | cons a r =>
      simp only [zipLongestFill, List.mem_cons] at hp
      rcases hp with rfl | hp
      · exact Or.inr ⟨nm, List.mem_cons_self _ _, rfl⟩
      · rcases ih r p hp with h | ⟨x, hx, hk⟩
        · exact Or.inl h
        · exact Or.inr ⟨x, List.mem_cons_of_mem _ hx, hk⟩

lemma lastVal_zipLongestFill (ns : List String) :
    ∀ (args : List JSVal) (i : ℕ) (h : i < ns.length), ns.Nodup →
      args.length ≤ i →
      lastVal (zipLongestFill ns args) (.name (ns.get ⟨i, h⟩)) =
        some .undef := by
  induction ns with
  | nil => intro args i h; exact absurd h (by simp)
  | cons nm t ih =>
    intro args i h hnd hlen
    have hnm : nm ∉ t := (List.nodup_cons.mp hnd).1
    have hndt : t.Nodup := (List.nodup_cons.mp hnd).2
    cases i with
    | zero =>
      have hargs : args = [] := List.length_eq_zero.mp (by omega)
      subst hargs
      simp only [zipLongestFill, lastVal, List.get]
      have : lastVal (zipLongestFill t []) (.name nm) = none := by
        apply lastVal_eq_none
        intro p hp
        rcases zipLongestFill_keys t [] p hp with hk | ⟨x, hx, hk⟩
        · rw [hk]; intro hc; cases hc
        · rw [hk]; intro hc
          cases hc
          exact hnm hx
      rw [this]
      simp
    | succ j =>
      have hlt : j < t.length := by
        simp only [List.length_cons] at h; omega
      cases args with
      | nil =>
        simp only [zipLongestFill, lastVal, List.get]
        rw [ih [] j hlt hndt (by simp)]
      | cons a r =>
        simp only [zipLongestFill, lastVal, List.get]
        rw [ih r j hlt hndt (by simp at hlen ⊢; omega)]

lemma scopeGet_eq_none_of_not_has (s : Scope) (k : Key)
    (h : scopeHas s k = false) : scopeGet s k = none := by
  unfold scopeHas at h
  cases hg : scopeGet s k with
  | none => rfl
  | some v => rw [hg] at h; cases h

lemma lnsGet_all_not_has (m : LNS) (k : Key)
    (h : ∀ s ∈ m, scopeHas s k = false) : lnsGet m k = .undef := by
  induction m with
  | nil => rfl
  | cons s t ih =>
    simp only [lnsGet]
    rw [scopeGet_eq_none_of_not_has s k (h s (List.mem_cons_self _ _))]
    exact ih (fun q hq => h q (List.mem_cons_of_mem _ hq))

lemma lnsGet_append_first (pre : LNS) (sc : Scope) (post : LNS) (k : Key)
    (v : JSVal) (hpre : ∀ s ∈ pre, scopeHas s k = false)
    (hsc : scopeGet sc k = some v) :
    lnsGet (pre ++ sc :: post) k = v := by
  induction pre with
  | nil => simp [lnsGet, hsc]
  | cons s t ih =>
    simp only [List.cons_append, lnsGet]
    rw [scopeGet_eq_none_of_not_has s k (hpre s (List.mem_cons_self _ _))]
    exact ih (fun q hq => hpre q (List.mem_cons_of_mem _ hq))

lemma lnsSetExisting_all_not_has (m : LNS) (k : Key) (v : JSVal)
    (h : ∀ s ∈ m, scopeHas s k = false) : lnsSetExisting m k v = none := by
  induction m with
  | nil => rfl
  | cons s t ih =>
    simp only [lnsSetExisting]
    rw [h s (List.mem_cons_self _ _)]
    simp only [Bool.false_eq_true, if_false]
    rw [ih (fun q hq => h q (List.mem_cons_of_mem _ hq))]
    rfl

lemma lnsSetExisting_append (pre : LNS) (sc : Scope) (post : LNS) (k : Key)
    (v : JSVal) (hpre : ∀ s ∈ pre, scopeHas s k = false)
    (hsc : scopeHas sc k = true) :
    lnsSetExisting (pre ++ sc :: post) k v =
      some (pre ++ scopeSet sc k v :: post) := by
  induction pre with
  | nil => simp [lnsSetExisting, hsc]
  | cons s t ih =>
    simp only [List.cons_append, lnsSetExisting]
    rw [hpre s (List.mem_cons_self _ _)]
    simp only [Bool.false_eq_true, if_false, List.append_eq]
    rw [ih (fun q hq => hpre q (List.mem_cons_of_mem _ hq))]
    rfl

lemma lnsGet_lnsSetExisting (m : LNS) (k : Key) (v : JSVal) :
    ∀ m', lnsSetExisting m k v = some m' → lnsGet m' k = v := by
  induction m with
  | nil => intro m' h; cases h
  | cons s t ih =>
    intro m' h
    simp only [lnsSetExisting] at h
    by_cases hs : scopeHas s k
    · rw [if_pos hs] at h
      cases h
      simp [lnsGet, scopeGet_scopeSet]
    · rw [if_neg hs] at h
      cases ht : lnsSetExisting t k v with
      | none => rw [ht] at h; cases h
      | some t' =>
        rw [ht] at h
        cases h
        simp only [lnsGet]
        rw [scopeGet_eq_none_of_not_has s k (by revert hs; cases scopeHas s k <;> simp)]
        exact ih t' ht

/-- C6 (confirmed): in the layered scope chain, lookup walks innermost
first and a failed lookup returns `JS_Undefined` rather than raising;
assignment to a name bound in some scope rewrites it in the innermost
defining scope; assignment to an unbound name creates the binding in the
innermost scope (a `ChainMap` always carries at least one scope); and a
lookup after an assignment sees the assigned value. -/
theorem C6_scope_chain (pre post rest : LNS) (sc s0 : Scope) (k : Key)
    (v w : JSVal) (m : LNS) :
    ((∀ s ∈ m, scopeHas s k = false) → lnsGet m k = .undef) ∧
    ((∀ s ∈ pre, scopeHas s k = false) → scopeGet sc k = some v →
      lnsGet (pre ++ sc :: post) k = v) ∧
    ((∀ s ∈ pre, scopeHas s k = false) → scopeHas sc k = true →
      lnsSet (pre ++ sc :: post) k w = pre ++ scopeSet sc k w :: post) ∧
    ((∀ s ∈ s0 :: rest, scopeHas s k = false) →
      lnsSet (s0 :: rest) k w = scopeSet s0 k w :: rest) ∧
    lnsGet (lnsSet (s0 :: rest) k w) k = w := by
  refine ⟨lnsGet_all_not_has m k, lnsGet_append_first pre sc post k v, ?_, ?_, ?_⟩
  · intro hpre hsc
    unfold lnsSet
    rw [lnsSetExisting_append pre sc post k w hpre hsc]
  · intro h
    unfold lnsSet
    rw [lnsSetExisting_all_not_has _ k w h]
  · unfold lnsSet
    cases he : lnsSetExisting (s0 :: rest) k w with
    | some m' => exact lnsGet_lnsSetExisting _ k w m' he
    | none =>
      simp [lnsGet, scopeGet_scopeSet]

/-- C6 witness: the scope-chain theorem applied to a two-scope chain
`[{a: 1}, {b: 2}]` at the keys `b` (defined in the outer scope) and `c`
(undefined). -/
theorem C6_witness :
    lnsGet [[(.name "a", .num (.int 1))], [(.name "b", .num (.int 2))]]
      (.name "c") = .undef ∧
    lnsGet [[(.name "a", .num (.int 1))], [(.name "b", .num (.int 2))]]
      (.name "b") = .num (.int 2) ∧
    lnsSet [[(.name "a", .num (.int 1))], [(.name "b", .num (.int 2))]]
      (.name "b") (.num (.int 9)) =
      [[(.name "a", .num (.int 1))], [(.name "b", .num (.int 9))]] ∧
    lnsSet [[(.name "a", .num (.int 1))], [(.name "b", .num (.int 2))]]
      (.name "c") (.num (.int 5)) =
      [[(.name "a", .num (.int 1)), (.name "c", .num (.int 5))],
        [(.name "b", .num (.int 2))]] :=
  ⟨(C6_scope_chain [] [] [[(.name "b", .num (.int 2))]] []
      [(.name "a", .num (.int 1))] (.name "c") .undef (.num (.int 5))
      [[(.name "a", .num (.int 1))], [(.name "b", .num (.int 2))]]).1
      (by decide),
   (C6_scope_chain [[(.name "a", .num (.int 1))]] [] []
      [(.name "b", .num (.int 2))] [] (.name "b") (.num (.int 2))
      (.num (.int 9)) []).2.1 (by decide) rfl,
   (C6_scope_chain [[(.name "a", .num (.int 1))]] [] []
      [(.name "b", .num (.int 2))] [] (.name "b") (.num (.int 2))
      (.num (.int 9)) []).2.2.1 (by decide) (by decide),
   (C6_scope_chain [] [] [[(.name "b", .num (.int 2))]]
      [] [(.name "a", .num (.int 1))] (.name "c") .undef (.num (.int 5))
      [[(.name "a", .num (.int 1))], [(.name "b", .num (.int 2))]]).2.2.2.1
      (by decide)⟩

lemma zipLongestFill_split (ns : List String) :
    ∀ args : List JSVal,
      zipLongestFill ns args =
        zipLongestFill ns (args.take ns.length) ++
          (args.drop ns.length).map (fun a => (Key.undefKey, a)) := by
  induction ns with
  | nil => intro args; simp [zipLongestFill]
  | cons nm t ih =>
    intro args
    cases args with
    | nil => simp [zipLongestFill]
    | cons a r =>
      simp only [zipLongestFill, List.length_cons, List.take_succ_cons,
        List.drop_succ_cons, List.cons_append]
      rw [ih r]

/-- C3 (corrected): on a call, missing arguments bind their parameter
names to `JS_Undefined` and surplus arguments are invisible to every name
lookup (they key under the `JS_Undefined` class, not under any name); the
body is interpreted as a statement with the decremented budget; a
return-signal propagates its value as the call's result; but a body that
completes *without* a return signal makes `resf` fall off the end, so the
call returns Python `None` — the interpreter's JS `null` — not
`Undefined`. -/
theorem C3_call_semantics (argnames : List String) (gs : List Scope)
    (args : List JSVal) (kwargs : List (String × JSVal)) (i : ℕ)
    (code : Stmt) (n : ℤ) (v : JSVal) (nm : String) :
    (argnames.Nodup → args.length ≤ i →
      ∀ h : i < argnames.length,
      (∀ p ∈ kwargs, p.1 ≠ argnames.get ⟨i, h⟩) →
      lnsGet (buildVarStack argnames gs args kwargs)
        (.name (argnames.get ⟨i, h⟩)) = .undef) ∧
    (lnsGet (buildVarStack argnames gs args kwargs) (.name nm) =
      lnsGet (buildVarStack argnames gs (args.take argnames.length) kwargs)
        (.name nm)) ∧
    (interpretStmt code (buildVarStack argnames gs args kwargs) (n - 1) =
        .ok (v, true) →
      resf argnames code gs args kwargs n = .ok v) ∧
    (interpretStmt code (buildVarStack argnames gs args kwargs) (n - 1) =
        .ok (v, false) →
      resf argnames code gs args kwargs n = .ok .null) := by
  refine ⟨?_, ?_, ?_, ?_⟩
  · intro hnd hlen h hkw
    have hkw2 : ∀ p ∈ kwargs.map (fun p => (Key.name p.1, p.2)),
        p.1 ≠ Key.name (argnames.get ⟨i, h⟩) := by
      intro p hp
      simp only [List.mem_map] at hp
      obtain ⟨q, hq, rfl⟩ := hp
      simp only [ne_eq, Key.name.injEq]
      exact hkw q hq
    unfold buildVarStack
    simp only [lnsGet]
    rw [scopeGet_scopeUpdate, scopeGet_scopeUpdate,
      lastVal_zipLongestFill argnames args i h hnd hlen,
      lastVal_eq_none _ _ hkw2]
    rfl
  · unfold buildVarStack
    simp only [lnsGet]
    rw [scopeGet_scopeUpdate, scopeGet_scopeUpdate, scopeGet_scopeUpdate,
      scopeGet_scopeUpdate, zipLongestFill_split argnames args,
      lastVal_append]
    have hdrop : lastVal
        ((args.drop argnames.length).map fun a => (Key.undefKey, a))
        (.name nm) = none := by
      apply lastVal_eq_none
      intro p hp
      simp only [List.mem_map] at hp
      obtain ⟨a, _, rfl⟩ := hp
      intro hc
      cases hc
    rw [hdrop]
    rfl
  · intro hb
    unfold resf
    rw [hb]
  · intro hb
    unfold resf
    rw [hb]

/-- C3 counterexample: a function body that is a bare expression statement
(no `return`) makes the call return `None`/`null`, not `Undefined` as the
claim states. -/
theorem C3_counterexample :
    resf [] (.litRet (.num (.int 5)) false) [[]] [] [] 100 = .ok .null ∧
    JSVal.null ≠ JSVal.undef :=
  ⟨rfl, fun h => nomatch h⟩

/-- C3 witness: the call-semantics theorem applied concretely — parameter
`b` unbound by the single argument, an extra argument invisible to lookups,
and bodies with and without a return signal. -/
theorem C3_witness :
    lnsGet (buildVarStack ["a", "b"] [[]] [.num (.int 7)] [])
      (.name "b") = .undef ∧
    lnsGet (buildVarStack ["a"] [[]] [.num (.int 1), .num (.int 2)] [])
      (.name "x") =
      lnsGet (buildVarStack ["a"] [[]]
        ([JSVal.num (.int 1), .num (.int 2)].take ["a"].length) [])
        (.name "x") ∧
    resf [] (.litRet (.num (.int 5)) true) [[]] [] [] 100 =
      .ok (.num (.int 5)) ∧
    resf ["a"] (.litRet (.num (.int 3)) false) [[]] [] [] 100 = .ok .null :=
  ⟨(C3_call_semantics ["a", "b"] [[]] [.num (.int 7)] [] 1 .empty 100
      .null "x").1 (by decide) (by decide) (by decide) (by simp),
   (C3_call_semantics ["a"] [[]] [.num (.int 1), .num (.int 2)] [] 0 .empty
      100 .null "x").2.1,
   (C3_call_semantics [] [[]] [] [] 0 (.litRet (.num (.int 5)) true) 100
      (.num (.int 5)) "x").2.2.1 rfl,
   (C3_call_semantics ["a"] [[]] [] [] 0 (.litRet (.num (.int 3)) false) 100
      (.num (.int 3)) "x").2.2.2 rfl⟩

lemma sepBracketStep_skipTxt (c : Char) (st : SepState) :
    ((sepBracketStep c st).2).skipTxt = st.skipTxt := by
  unfold sepBracketStep
  repeat' split
  all_goals rfl

lemma sepBracketStep_start (c : Char) (st : SepState) :
    ((sepBracketStep c st).2).start = st.start := by
  unfold sepBracketStep
  repeat' split
  all_goals rfl

lemma sepQuoteStep_skipTxt (c : Char) (e a : Bool) (pd : ℤ)
    (st1 : SepState) : (sepQuoteStep c e a pd st1).skipTxt = st1.skipTxt := by
  unfold sepQuoteStep
  repeat' split
  all_goals rfl

lemma sepQuoteStep_start (c : Char) (e a : Bool) (pd : ℤ)
    (st1 : SepState) : (sepQuoteStep c e a pd st1).start = st1.start := by
  unfold sepQuoteStep
  repeat' split
  all_goals rfl

lemma sepStep_cont_props (expr d : List Char) (ms : ℕ)
    (sds : List (List Char)) (c : Char) (rest : List Char) (idx : ℕ)
    (st st1 : SepState) (hskip : st.skipTxt = none)
    (hnc : ¬ (c = '/' ∧ rest.head? = some '*'))
    (h : sepStep expr d ms sds c rest idx st = .cont st1) :
    st1.skipTxt = none ∧ st1.start = st.start := by
  have h4skip : (sepQuoteStep c st.escaping st.afterOp (sepBracketStep c st).1
      (sepBracketStep c st).2).skipTxt = none := by
    rw [sepQuoteStep_skipTxt, sepBracketStep_skipTxt]
    exact hskip
  have h4start : (sepQuoteStep c st.escaping st.afterOp (sepBracketStep c st).1
      (sepBracketStep c st).2).start = st.start := by
    rw [sepQuoteStep_start, sepBracketStep_start]
  have hcs : ¬ (st.inQuote = none ∧ c = '/' ∧ rest.head? = some '*') :=
    fun hx => hnc ⟨hx.2.1, hx.2.2⟩
  unfold sepStep at h
  simp only [hskip, Bool.false_eq_true, if_false, if_neg hcs] at h
  repeat' split at h
  all_goals try cases h
  all_goals exact ⟨h4skip, h4start⟩

lemma findSub_isSome_cons (l pat : List Char) (c : Char)
    (h : (findSub l pat).isSome) : (findSub (c :: l) pat).isSome := by
  simp only [findSub]
  split
  · simp
  · simpa using h

lemma hasSub_of_drop (l : List Char) (a b : Char) :
    ∀ (i : ℕ) (t : List Char), l.drop i = a :: b :: t →
      hasSub l [a, b] = true := by
  induction l with
  | nil =>
    intro i t h
    rw [List.drop_nil] at h
    cases h
  | cons c r ih =>
    intro i t h
    cases i with
    | zero =>
      simp only [List.drop_zero] at h
      cases h
      simp [hasSub, findSub, List.isPrefixOf]
    | succ j =>
      rw [List.drop_succ_cons] at h
      have hr := ih j t h
      unfold hasSub at hr ⊢
      exact findSub_isSome_cons r [a, b] c hr

lemma sepLoop_length_pos (expr d : List Char) (ms : ℕ)
    (sds : List (List Char)) :
    ∀ (rest : List Char) (idx : ℕ) (st : SepState),
      1 ≤ (sepLoop expr d ms sds rest idx st).length := by
  intro rest
  induction rest with
  | nil => intro idx st; simp [sepLoop]
  | cons c r ih =>
    intro idx st
    simp only [sepLoop]
    split
    · exact ih _ _
    · simp
    · simp only [List.length_cons]
      omega

lemma sepLoop_no_split (expr d : List Char) (ms : ℕ) (sds : List (List Char))
    (hno : hasSub expr ['/', '*'] = false) :
    ∀ (rest : List Char) (idx : ℕ) (st : SepState),
      st.skipTxt = none → rest = expr.drop idx →
      (sepLoop expr d ms sds rest idx st).length = 1 →
      sepLoop expr d ms sds rest idx st = [expr.drop st.start] := by
  intro rest
  induction rest with
  | nil =>
    intro idx st hskip _ _
    simp [sepLoop, finalPiece, hskip]
  | cons c r ih =>
    intro idx st hskip hdrop hlen
    have hnc : ¬ (c = '/' ∧ r.head? = some '*') := by
      rintro ⟨rfl, hr⟩
      cases r with
      | nil => cases hr
      | cons b t =>
        simp only [List.head?_cons, Option.some.injEq] at hr
        subst hr
        rw [hasSub_of_drop expr '/' '*' idx t hdrop.symm] at hno
        cases hno
    have hdrop1 : r = expr.drop (idx + 1) := by
      rw [← List.tail_drop, ← hdrop]
      rfl
    simp only [sepLoop] at hlen ⊢
    cases hstep : sepStep expr d ms sds c r idx st with
    | cont st1 =>
      simp only [hstep] at hlen ⊢
      obtain ⟨h1, h2⟩ :=
        sepStep_cont_props expr d ms sds c r idx st st1 hskip hnc hstep
      rw [ih (idx + 1) st1 h1 hdrop1 hlen, h2]
    | emit p st1 stop =>
      simp only [hstep] at hlen
      cases stop with
      | false =>
        have := sepLoop_length_pos expr d ms sds r (idx + 1) st1
        simp only [List.length_cons] at hlen
        omega
      | true => simp at hlen

/-- C5 (corrected): for every *non-empty* string `s` containing no block
comment, if the scan finds no delimiter occurrence at nesting depth zero
outside quotes/regex literals (i.e. splitting produces a single piece),
that piece is exactly `s`.  The two exclusions are forced: `_separate`
yields nothing at all on the empty string, and a block comment is excised
from the piece even when no delimiter occurs. -/
theorem C5_separate_single (s d : String) :
    s ≠ "" → hasSub s.toList ['/', '*'] = false →
    (separate s d 0 []).length = 1 →
    separate s d 0 [] = [s] := by
  intro hs hno hlen
  unfold separate at hlen ⊢
  rw [if_neg hs] at hlen ⊢
  simp only [List.map_nil] at hlen ⊢
  rw [List.length_map] at hlen
  rw [sepLoop_no_split s.toList d.toList 0 [] hno s.toList 0 {} rfl
    (List.drop_zero _).symm hlen]
  show [(⟨s.toList⟩ : String)] = [s]
  cases s
  rfl

/-- C5 counterexample: splitting the empty string yields `[]`, not `[""]`;
and splitting `"a/*x*/b"` (no delimiter anywhere) yields `["ab"]` with the
block comment excised, not `["a/*x*/b"]`. -/
theorem C5_counterexample :
    separate "" "," 0 [] = [] ∧ ([] : List String) ≠ [""] ∧
    separate "a/*x*/b" "," 0 [] = ["ab"] ∧
    (["ab"] : List String) ≠ ["a/*x*/b"] :=
  ⟨rfl, by decide, by decide, by decide⟩

/-- C5 witness: the separator theorem applied to `"f(a,b)+c"` split on a
comma — the commas sit inside parentheses, so the split is trivial. -/
theorem C5_witness : separate "f(a,b)+c" "," 0 [] = ["f(a,b)+c"] :=
  C5_separate_single "f(a,b)+c" "," (by decide) (by decide) (by decide)
